import Mathlib

/-!
# Verification of the railway train-composition model (`src/main.py`)

Shallow embedding of the Python program: `Seat`, `Carriage`, `Locomotive`,
`Train`, their attribute-based equality methods, the JSON save/load
round-trip, and the tabular report generation.

Python is dynamically typed, so attribute values are embedded as `Json`
values (the program only ever stores JSON-representable data: the values
written by `json.dump` and read back by `json.load`).  JSON numbers in this
program are integers only, so the numeric constructor carries an `Int`.
Python dictionaries produced by `json.load` have unique keys; objects are
association lists and structural equality is used for them (key order is
canonical throughout this program).
-/

set_option autoImplicit false

/-- A JSON value, as produced by Python's `json.load` for this program. -/
inductive Json where
  | null
  | bool (b : Bool)
  | int (n : Int)
  | str (s : String)
  | arr (xs : List Json)
  | obj (kvs : List (String × Json))

mutual

/-- Decidable structural equality on `Json`, modelling Python's `==` on
JSON-decoded values (dict key order is canonical throughout this program). -/
def Json.decEq : (a b : Json) → Decidable (a = b)
  | .null, .null => isTrue rfl
  | .bool a, .bool b =>
    if h : a = b then isTrue (by rw [h]) else isFalse (fun hh => h (Json.bool.inj hh))
  | .int a, .int b =>
    if h : a = b then isTrue (by rw [h]) else isFalse (fun hh => h (Json.int.inj hh))
  | .str a, .str b =>
    if h : a = b then isTrue (by rw [h]) else isFalse (fun hh => h (Json.str.inj hh))
  | .arr xs, .arr ys =>
    match Json.decEqList xs ys with
    | isTrue h => isTrue (by rw [h])
    | isFalse h => isFalse (fun hh => h (Json.arr.inj hh))
  | .obj a, .obj b =>
    match Json.decEqObj a b with
    | isTrue h => isTrue (by rw [h])
    | isFalse h => isFalse (fun hh => h (Json.obj.inj hh))
  | .null, .bool _ => isFalse (fun h => Json.noConfusion h)
  | .null, .int _ => isFalse (fun h => Json.noConfusion h)
  | .null, .str _ => isFalse (fun h => Json.noConfusion h)
  | .null, .arr _ => isFalse (fun h => Json.noConfusion h)
  | .null, .obj _ => isFalse (fun h => Json.noConfusion h)
  | .bool _, .null => isFalse (fun h => Json.noConfusion h)
  | .bool _, .int _ => isFalse (fun h => Json.noConfusion h)
  | .bool _, .str _ => isFalse (fun h => Json.noConfusion h)
  | .bool _, .arr _ => isFalse (fun h => Json.noConfusion h)
  | .bool _, .obj _ => isFalse (fun h => Json.noConfusion h)
  | .int _, .null => isFalse (fun h => Json.noConfusion h)
  | .int _, .bool _ => isFalse (fun h => Json.noConfusion h)
  | .int _, .str _ => isFalse (fun h => Json.noConfusion h)
  | .int _, .arr _ => isFalse (fun h => Json.noConfusion h)
  | .int _, .obj _ => isFalse (fun h => Json.noConfusion h)
  | .str _, .null => isFalse (fun h => Json.noConfusion h)
  | .str _, .bool _ => isFalse (fun h => Json.noConfusion h)
  | .str _, .int _ => isFalse (fun h => Json.noConfusion h)
  | .str _, .arr _ => isFalse (fun h => Json.noConfusion h)
  | .str _, .obj _ => isFalse (fun h => Json.noConfusion h)
  | .arr _, .null => isFalse (fun h => Json.noConfusion h)
  | .arr _, .bool _ => isFalse (fun h => Json.noConfusion h)
  | .arr _, .int _ => isFalse (fun h => Json.noConfusion h)
  | .arr _, .str _ => isFalse (fun h => Json.noConfusion h)
  | .arr _, .obj _ => isFalse (fun h => Json.noConfusion h)
  | .obj _, .null => isFalse (fun h => Json.noConfusion h)
  | .obj _, .bool _ => isFalse (fun h => Json.noConfusion h)
  | .obj _, .int _ => isFalse (fun h => Json.noConfusion h)
  | .obj _, .str _ => isFalse (fun h => Json.noConfusion h)
  | .obj _, .arr _ => isFalse (fun h => Json.noConfusion h)

/-- Componentwise decidable equality of JSON lists. -/
def Json.decEqList : (xs ys : List Json) → Decidable (xs = ys)
  | [], [] => isTrue rfl
  | [], _ :: _ => isFalse (fun h => List.noConfusion h)
  | _ :: _, [] => isFalse (fun h => List.noConfusion h)
  | x :: xs, y :: ys =>
    match Json.decEq x y, Json.decEqList xs ys with
    | isTrue h1, isTrue h2 => isTrue (by rw [h1, h2])
    | isFalse h1, _ => isFalse (fun hh => by injection hh with a b; exact h1 a)
    | _, isFalse h2 => isFalse (fun hh => by injection hh with a b; exact h2 b)

/-- Componentwise decidable equality of JSON key-value lists. -/
def Json.decEqObj : (xs ys : List (String × Json)) → Decidable (xs = ys)
  | [], [] => isTrue rfl
  | [], _ :: _ => isFalse (fun h => List.noConfusion h)
  | _ :: _, [] => isFalse (fun h => List.noConfusion h)
  | (k1, v1) :: xs, (k2, v2) :: ys =>
    if hk : k1 = k2 then
      match Json.decEq v1 v2, Json.decEqObj xs ys with
      | isTrue hv, isTrue ht => isTrue (by rw [hk, hv, ht])
      | isFalse hv, _ => isFalse (fun hh => by
          injection hh with a b
          exact hv (congrArg Prod.snd a))
      | _, isFalse ht => isFalse (fun hh => by
          injection hh with a b
          exact ht b)
    else isFalse (fun hh => by
      injection hh with a b
      exact hk (congrArg Prod.fst a))

end

instance : DecidableEq Json := Json.decEq

namespace Json

/-- Python truthiness of a JSON-decoded value: `None`, `False`, `0`, `""`,
`[]` and `{}` are falsy, everything else is truthy.  Used by
`if data['locomotive']:` in `Train.load_from_file`. -/
def truthy : Json → Bool
  | .null => false
  | .bool b => b
  | .int n => n != 0
  | .str s => !s.isEmpty
  | .arr xs => !xs.isEmpty
  | .obj kvs => !kvs.isEmpty

/-- Python subscription `data[key]` on a JSON-decoded value: succeeds only on
a dict that has the key (`KeyError` on a missing key, `TypeError` on any
non-dict).  Both exceptions are modelled as `Except.error ()`. -/
def getKey : Json → String → Except Unit Json
  | .obj kvs, k =>
    match kvs.lookup k with
    | some v => .ok v
    | none => .error ()
  | _, _ => .error ()

/-- Python iteration over a JSON-decoded value, as used by the list
comprehensions in `load_from_file` / `Carriage.from_dict`: lists yield their
elements, strings their characters, dicts their keys; `None`, booleans and
numbers are not iterable (`TypeError`). -/
def pyIter : Json → Except Unit (List Json)
  | .arr xs => .ok xs
  | .str s => .ok (s.toList.map (fun c => .str c.toString))
  | .obj kvs => .ok (kvs.map (fun kv => .str kv.1))
  | _ => .error ()

end Json

/-- `[f x for x in xs]` under exceptions: first raised exception propagates. -/
def mapE {α β : Type} (f : α → Except Unit β) : List α → Except Unit (List β)
  | [] => .ok []
  | x :: xs => do
    let y ← f x
    let ys ← mapE f xs
    .ok (y :: ys)

/-- `class Seat`: one seat of a carriage (`src/main.py`, lines 6-25).
Attribute values are dynamic, hence `Json`-typed. -/
structure Seat where
  number : Json
  seat_type : Json
  comfort_class : Json
  reserved : Json
  deriving DecidableEq

namespace Seat

/-- `Seat.__init__` with the default `reserved=False`. -/
def mk3 (number seat_type comfort_class : Json) : Seat :=
  ⟨number, seat_type, comfort_class, .bool false⟩

/-- `Seat.__eq__`: equal iff `comfort_class` and `seat_type` coincide.
(`number` and `reserved` are not consulted.) -/
def eq (s o : Seat) : Bool :=
  s.comfort_class == o.comfort_class && s.seat_type == o.seat_type

/-- `Seat.to_dict`: `self.__dict__`, keys in attribute insertion order. -/
def toDict (s : Seat) : Json :=
  .obj [("number", s.number), ("seat_type", s.seat_type),
        ("comfort_class", s.comfort_class), ("reserved", s.reserved)]

/-- `Seat.from_dict(data)` = `cls(**data)`: `data` must be a dict whose keys
are all parameter names of `Seat.__init__`; `number`, `seat_type` and
`comfort_class` are required, `reserved` defaults to `False`.  A non-dict,
an unexpected key or a missing required key raises `TypeError`. -/
def fromDict : Json → Except Unit Seat
  | .obj kvs =>
    if kvs.all (fun kv => kv.1 == "number" || kv.1 == "seat_type" ||
        kv.1 == "comfort_class" || kv.1 == "reserved") then
      match kvs.lookup "number", kvs.lookup "seat_type",
          kvs.lookup "comfort_class" with
      | some n, some st, some cc =>
        .ok ⟨n, st, cc, (kvs.lookup "reserved").getD (.bool false)⟩
      | _, _, _ => .error ()
    else .error ()
  | _ => .error ()

end Seat

/-- `class Carriage`: a rail car holding seats (`src/main.py`, lines 28-56). -/
structure Carriage where
  number : Json
  carriage_type : Json
  seats : List Seat
  deriving DecidableEq

namespace Carriage

/-- `Carriage.__init__`: empty seat list. -/
def init (number carriage_type : Json) : Carriage :=
  ⟨number, carriage_type, []⟩

/-- `Carriage.add_seat`: appends unconditionally. -/
def add_seat (c : Carriage) (s : Seat) : Carriage :=
  { c with seats := c.seats ++ [s] }

/-- `Carriage.__eq__`: equal iff `number` and `carriage_type` coincide. -/
def eq (c o : Carriage) : Bool :=
  c.number == o.number && c.carriage_type == o.carriage_type

/-- `Carriage.to_dict`. -/
def toDict (c : Carriage) : Json :=
  .obj [("number", c.number), ("carriage_type", c.carriage_type),
        ("seats", .arr (c.seats.map Seat.toDict))]

/-- `Carriage.from_dict(data)`: `cls(data['number'], data['carriage_type'])`,
then `data['seats']` is iterated and each element passed to
`Seat.from_dict`. -/
def fromDict (data : Json) : Except Unit Carriage := do
  let n ← data.getKey "number"
  let ct ← data.getKey "carriage_type"
  let seatsJ ← data.getKey "seats"
  let items ← seatsJ.pyIter
  let seats ← mapE Seat.fromDict items
  .ok ⟨n, ct, seats⟩

end Carriage

/-- `class Locomotive` (`src/main.py`, lines 59-73). -/
structure Locomotive where
  serial_number : Json
  power : Json
  deriving DecidableEq

namespace Locomotive

/-- `Locomotive.__eq__`: equal iff the serial numbers coincide. -/
def eq (l o : Locomotive) : Bool :=
  l.serial_number == o.serial_number

/-- `Locomotive.to_dict`: `self.__dict__`. -/
def toDict (l : Locomotive) : Json :=
  .obj [("serial_number", l.serial_number), ("power", l.power)]

/-- `Locomotive.from_dict(data)` = `cls(**data)`: `data` must be a dict with
exactly the keys `serial_number` and `power` (both required, no defaults). -/
def fromDict : Json → Except Unit Locomotive
  | .obj kvs =>
    if kvs.all (fun kv => kv.1 == "serial_number" || kv.1 == "power") then
      match kvs.lookup "serial_number", kvs.lookup "power" with
      | some sn, some p => .ok ⟨sn, p⟩
      | _, _ => .error ()
    else .error ()
  | _ => .error ()

end Locomotive

/-- `class Train` (`src/main.py`, lines 76-165).  `locomotive` is `None` or a
`Locomotive`, modelled as `Option Locomotive`. -/
structure Train where
  number : Json
  route : Json
  locomotive : Option Locomotive
  carriages : List Carriage
  deriving DecidableEq

namespace Train

/-- `Train.__init__(number, route)`: no locomotive, no carriages. -/
def init (number route : Json) : Train :=
  ⟨number, route, none, []⟩

/-- `Train.set_locomotive`: replaces the current locomotive unconditionally. -/
def set_locomotive (t : Train) (l : Locomotive) : Train :=
  { t with locomotive := some l }

/-- `Train.add_carriage`: `if carriage not in self.carriages:` appends.
Python's `in` tests `element == carriage` with `Carriage.__eq__`. -/
def add_carriage (t : Train) (c : Carriage) : Train :=
  if t.carriages.any (fun e => Carriage.eq e c) then t
  else { t with carriages := t.carriages ++ [c] }

/-- `list.remove`: drops the first element equal (by `Carriage.__eq__`) to
`c`; the Python call is guarded by `in`, so the absent case never reaches
`remove` and the list is returned unchanged. -/
def removeFirst : List Carriage → Carriage → List Carriage
  | [], _ => []
  | e :: rest, c => if Carriage.eq e c then rest else e :: removeFirst rest c

/-- `Train.remove_carriage`: `if carriage in self.carriages:
self.carriages.remove(carriage)`. -/
def remove_carriage (t : Train) (c : Carriage) : Train :=
  if t.carriages.any (fun e => Carriage.eq e c) then
    { t with carriages := removeFirst t.carriages c }
  else t

/-- `Train.__eq__`: equal iff the train numbers coincide. -/
def eq (t o : Train) : Bool :=
  t.number == o.number

/-- The JSON value written by `Train.save_to_file`:
`{'number': ..., 'route': ..., 'locomotive': to_dict-or-None,
'carriages': [to_dict...]}`.  A `Locomotive` object is always truthy, so
`self.locomotive.to_dict() if self.locomotive else None` is `null` exactly
when the locomotive is unset. -/
def saveData (t : Train) : Json :=
  .obj [("number", t.number), ("route", t.route),
        ("locomotive", match t.locomotive with
          | some l => l.toDict
          | none => .null),
        ("carriages", .arr (t.carriages.map Carriage.toDict))]

/-- Body of `Train.load_from_file` after `json.load` succeeded: builds the
train from the decoded value.  Field access order follows the source:
`number`, `route`, then `locomotive` (set only when truthy), then
`carriages` (direct assignment, no dedup). -/
def parseTrain (data : Json) : Except Unit Train := do
  let n ← data.getKey "number"
  let r ← data.getKey "route"
  let locJ ← data.getKey "locomotive"
  let loco ← if locJ.truthy then
      (Locomotive.fromDict locJ).map some
    else pure none
  let carJ ← data.getKey "carriages"
  let items ← carJ.pyIter
  let cars ← mapE Carriage.fromDict items
  .ok ⟨n, r, loco, cars⟩

end Train

/-- What `load_from_file` finds at the given path: no file at all, a file
whose text is not valid JSON, or a file decoding to a JSON value. -/
inductive FileContent where
  | missing
  | invalidText
  | json (j : Json)
  deriving DecidableEq

/-- Error kinds surfaced by `load` (spec §7): `FileNotFoundError` from `open`
on a missing file is the NotFoundError kind; `json.JSONDecodeError` from
`json.load` and the `KeyError`/`TypeError` exceptions raised while
reconstructing the objects are the ParseError kind.  All propagate to the
caller. -/
inductive LoadErr where
  | notFound
  | parseError
  deriving DecidableEq

/-- `Train.load_from_file`, over the abstracted file content. -/
def loadFromFile : FileContent → Except LoadErr Train
  | .missing => .error .notFound
  | .invalidText => .error .parseError
  | .json j =>
    match Train.parseTrain j with
    | .ok t => .ok t
    | .error _ => .error .parseError

/-! ## Report generation (`Train.create_excel_report`, lines 128-165)

The worksheet is modelled as its grid of cell values (a list of rows, each a
list of `Json` cell values) plus the computed column widths.  Cell styling
(bold font) and the workbook container are not part of the value model. -/

namespace Train

/-- The header row written at row 1: `['Вагон', 'Тип вагона', 'Место',
'Тип места', 'Класс', 'Статус']`. -/
def headers : List Json :=
  [.str "Вагон", .str "Тип вагона", .str "Место",
   .str "Тип места", .str "Класс", .str "Статус"]

/-- One data row for a (carriage, seat) pair: columns 1-6 of the loop body.
`"Забронировано" if seat.reserved else "Свободно"` tests Python truthiness
of the `reserved` attribute. -/
def seatRow (c : Carriage) (s : Seat) : List Json :=
  [c.number, c.carriage_type, s.number, s.seat_type, s.comfort_class,
   .str (if s.reserved.truthy then "Забронировано" else "Свободно")]

/-- The rows of the report worksheet, in the order the nested loop writes
them: the header row, then for each carriage in order, one row per seat in
order. -/
def reportRows (t : Train) : List (List Json) :=
  headers ::
    t.carriages.foldl (fun acc c => c.seats.foldl (fun acc2 s => acc2 ++ [seatRow c s]) acc) []

end Train

/-- Python `str()` of a worksheet cell value, used for column sizing.  Cells
of this report hold strings, integers, booleans or `None`; container values
cannot be stored in an `openpyxl` cell at all (the assignment raises), so
the `arr`/`obj` branches are unreachable for any report the program writes
and are mapped to `""`. -/
def pyStr : Json → String
  | .null => "None"
  | .bool b => if b then "True" else "False"
  | .int n => toString n
  | .str s => s
  | .arr _ => ""
  | .obj _ => ""

namespace Train

/-- Column sizing of `create_excel_report`: for one column (index `i`,
0-based) the loop scans every cell of the column — header included — keeps
the maximum `len(str(cell.value))`, and sets the width to that maximum plus
2. -/
def colWidth (rows : List (List Json)) (i : Nat) : Nat :=
  (rows.foldl (fun m r =>
    let l := (pyStr (r.getD i .null)).length
    if l > m then l else m) 0) + 2

end Train

/-! ## Well-typedness

The spec's data model (§3) declares concrete field types.  `WellTyped`
states that every attribute holds a value of its declared type; on such
trains `pyStr` is exactly Python's `str` on every report cell. -/

/-- The value is a JSON string. -/
def Json.isStr : Json → Bool
  | .str _ => true
  | _ => false

/-- The value is a JSON integer. -/
def Json.isInt : Json → Bool
  | .int _ => true
  | _ => false

/-- The value is a JSON boolean. -/
def Json.isBool : Json → Bool
  | .bool _ => true
  | _ => false

/-- Seat fields have the spec's types: integer number, string type and
class, boolean reserved flag. -/
def Seat.wt (s : Seat) : Bool :=
  s.number.isInt && s.seat_type.isStr && s.comfort_class.isStr && s.reserved.isBool

/-- Carriage fields have the spec's types and all seats are well-typed. -/
def Carriage.wt (c : Carriage) : Bool :=
  c.number.isInt && c.carriage_type.isStr && c.seats.all Seat.wt

/-- Locomotive fields have the spec's types. -/
def Locomotive.wt (l : Locomotive) : Bool :=
  l.serial_number.isStr && l.power.isInt

/-- Train fields have the spec's types and all components are well-typed. -/
def Train.wt (t : Train) : Bool :=
  t.number.isStr && t.route.isStr &&
    (match t.locomotive with
      | some l => l.wt
      | none => true) &&
    t.carriages.all Carriage.wt

/-! ## Dynamic attribute access

The `__eq__` methods read attributes off the *other* operand with no type
check.  To state what happens when the other operand is an arbitrary Python
object, an object is modelled by its attribute dictionary; reading an absent
attribute raises `AttributeError` (modelled as `Except.error ()`).  `A and B`
in the two-field comparisons short-circuits: `B` is evaluated only when `A`
is `True`. -/

/-- An arbitrary Python object, reduced to its attribute dictionary. -/
abbrev PyObj := List (String × Json)

/-- `other.attr`: the attribute's value, or `AttributeError`. -/
def pyGetAttr (o : PyObj) (k : String) : Except Unit Json :=
  match o.lookup k with
  | some v => .ok v
  | none => .error ()

/-- `Seat.__eq__(self, other)` against an arbitrary object:
`self.comfort_class == other.comfort_class and
self.seat_type == other.seat_type`. -/
def Seat.eqPy (s : Seat) (o : PyObj) : Except Unit Bool := do
  let cc ← pyGetAttr o "comfort_class"
  if s.comfort_class == cc then do
    let st ← pyGetAttr o "seat_type"
    .ok (s.seat_type == st)
  else .ok false

/-- `Carriage.__eq__(self, other)` against an arbitrary object. -/
def Carriage.eqPy (c : Carriage) (o : PyObj) : Except Unit Bool := do
  let n ← pyGetAttr o "number"
  if c.number == n then do
    let ct ← pyGetAttr o "carriage_type"
    .ok (c.carriage_type == ct)
  else .ok false

/-- `Locomotive.__eq__(self, other)` against an arbitrary object. -/
def Locomotive.eqPy (l : Locomotive) (o : PyObj) : Except Unit Bool := do
  let sn ← pyGetAttr o "serial_number"
  .ok (l.serial_number == sn)

/-- `Train.__eq__(self, other)` against an arbitrary object. -/
def Train.eqPy (t : Train) (o : PyObj) : Except Unit Bool := do
  let n ← pyGetAttr o "number"
  .ok (t.number == n)

/-! ## Reachable train states

Trains the program can hold: built by the constructor and mutated through
`set_locomotive` / `add_carriage` / `remove_carriage`, or loaded back from a
file the program itself saved. -/

/-- Train states reachable through the program's own operations. -/
inductive ReachableTrain : Train → Prop where
  | init (n r : Json) : ReachableTrain (Train.init n r)
  | add {t : Train} (c : Carriage) : ReachableTrain t → ReachableTrain (t.add_carriage c)
  | remove {t : Train} (c : Carriage) :
      ReachableTrain t → ReachableTrain (t.remove_carriage c)
  | setLoco {t : Train} (l : Locomotive) :
      ReachableTrain t → ReachableTrain (t.set_locomotive l)
  | loadSave {t t2 : Train} : ReachableTrain t →
      loadFromFile (.json t.saveData) = .ok t2 → ReachableTrain t2

/-! ## Concrete data for counterexamples and witnesses -/

/-- A one-carriage, one-seat train, used to exhibit concrete report cells. -/
def demoTrain : Train :=
  ⟨.str "045А", .str "Москва - Санкт-Петербург", none,
    [⟨.int 10, .str "купейный",
      [⟨.int 1, .str "нижнее", .str "купейное", .bool false⟩]⟩]⟩

/-- Persisted content whose single seat object lacks the key `reserved` that
the expected structure (spec §6) requires. -/
def malformedContent : Json :=
  .obj [("number", .str "a"), ("route", .str "b"), ("locomotive", .null),
        ("carriages", .arr [.obj [("number", .int 1), ("carriage_type", .str "к"),
          ("seats", .arr [.obj [("number", .int 2), ("seat_type", .str "н"),
            ("comfort_class", .str "к")]])]])]

/-- Persisted content holding two identical carriage objects. -/
def dupContent : Json :=
  .obj [("number", .str "a"), ("route", .str "b"), ("locomotive", .null),
        ("carriages", .arr
          [.obj [("number", .int 1), ("carriage_type", .str "к"), ("seats", .arr [])],
           .obj [("number", .int 1), ("carriage_type", .str "к"), ("seats", .arr [])]])]

/-! ## Round-trip helper lemmas -/

theorem exceptBind_ok {ε α β : Type} (a : α) (f : α → Except ε β) :
    (Except.ok a >>= f) = f a := rfl

theorem mapE_ok_of_forall {α β : Type} (f : α → Except Unit β) (g : β → α)
    (xs : List β) (h : ∀ x ∈ xs, f (g x) = .ok x) :
    mapE f (xs.map g) = .ok xs := by
  induction xs with
  | nil => rfl
  | cons x xs ih =>
    simp only [List.map_cons, mapE, h x (List.mem_cons_self x xs), exceptBind_ok,
      ih (fun y hy => h y (List.mem_cons_of_mem x hy))]

theorem seat_fromDict_toDict (s : Seat) : Seat.fromDict s.toDict = .ok s := rfl

theorem locomotive_fromDict_toDict (l : Locomotive) :
    Locomotive.fromDict l.toDict = .ok l := rfl

theorem carriage_fromDict_toDict (c : Carriage) :
    Carriage.fromDict c.toDict = .ok c := by
  have hs : mapE Seat.fromDict (c.seats.map Seat.toDict) = .ok c.seats :=
    mapE_ok_of_forall _ _ _ (fun s _ => seat_fromDict_toDict s)
  show (do
      let items ← Json.pyIter (.arr (c.seats.map Seat.toDict))
      let seats ← mapE Seat.fromDict items
      (.ok ⟨c.number, c.carriage_type, seats⟩ : Except Unit Carriage)) = .ok c
  simp only [Json.pyIter, exceptBind_ok, hs]

theorem Train.parse_saveData (t : Train) : Train.parseTrain t.saveData = .ok t := by
  have hc : mapE Carriage.fromDict (t.carriages.map Carriage.toDict) = .ok t.carriages :=
    mapE_ok_of_forall _ _ _ (fun c _ => carriage_fromDict_toDict c)
  obtain ⟨n, r, lo, cs⟩ := t
  cases lo with
  | none =>
    show (do
        let items ← Json.pyIter (.arr (cs.map Carriage.toDict))
        let cars ← mapE Carriage.fromDict items
        (.ok ⟨n, r, none, cars⟩ : Except Unit Train)) = _
    simp only [Json.pyIter, exceptBind_ok, hc]
  | some l =>
    show (do
        let loco ← (Locomotive.fromDict l.toDict).map some
        let items ← Json.pyIter (.arr (cs.map Carriage.toDict))
        let cars ← mapE Carriage.fromDict items
        (.ok ⟨n, r, loco, cars⟩ : Except Unit Train)) = _
    simp only [locomotive_fromDict_toDict, Json.pyIter, Except.map, exceptBind_ok, hc]

/-! ## Claims -/

/-- **C1.** For every Train `T` (any number, route, optional locomotive, and
carriage/seat sequences), loading the file produced by saving `T` yields a
Train whose number, route, locomotive fields, and carriage sequence (with
each carriage's seat sequence, including seat number, seat_type,
comfort_class, reserved) equal those of `T`, in the original order. -/
theorem c1_save_load_round_trip (t : Train) :
    loadFromFile (.json t.saveData) = .ok t := by
  simp only [loadFromFile, Train.parse_saveData]

/-- **C2.** For all Seats `s1` and `s2`, Seat equality holds if and only if
`s1.comfort_class == s2.comfort_class` and `s1.seat_type == s2.seat_type`;
the result is independent of the seats' `number` and `reserved` fields. -/
theorem c2_seat_eq_ignores_number_reserved (s1 s2 : Seat) :
    (Seat.eq s1 s2 = true ↔
      (s1.comfort_class = s2.comfort_class ∧ s1.seat_type = s2.seat_type)) ∧
    (∀ n1 r1 n2 r2 : Json,
      Seat.eq { s1 with number := n1, reserved := r1 }
        { s2 with number := n2, reserved := r2 } = Seat.eq s1 s2) := by
  constructor
  · simp [Seat.eq]
  · intro n1 r1 n2 r2
    rfl

/-! Helper lemmas about `add_carriage` / `remove_carriage`. -/

theorem Train.add_carriage_of_mem {t : Train} {c : Carriage}
    (h : ∃ e ∈ t.carriages, Carriage.eq e c = true) :
    t.add_carriage c = t := by
  simp only [Train.add_carriage]
  rw [if_pos]
  simpa [List.any_eq_true] using h

theorem Train.add_carriage_of_not_mem {t : Train} {c : Carriage}
    (h : ∀ e ∈ t.carriages, Carriage.eq e c = false) :
    (t.add_carriage c).carriages = t.carriages ++ [c] := by
  simp only [Train.add_carriage]
  rw [if_neg]
  simp only [List.any_eq_true, not_exists, not_and]
  intro e he
  simp [h e he]

theorem Carriage.eq_refl (c : Carriage) : Carriage.eq c c = true := by
  simp [Carriage.eq]

/-- **C3.** For every Train and every Carriage `c`: `add_carriage c` appends
`c` only if no existing carriage in the train equals `c` by Carriage
equality (same number and carriage_type), otherwise it is a no-op without
error; hence adding an equal carriage twice leaves the carriage-sequence
length unchanged, while adding a carriage with the same number but a
different type appends a distinct entry. -/
theorem c3_add_carriage_conditional_append :
    (∀ (t : Train) (c : Carriage), (∃ e ∈ t.carriages, Carriage.eq e c = true) →
      (t.add_carriage c).carriages = t.carriages) ∧
    (∀ (t : Train) (c : Carriage), (∀ e ∈ t.carriages, Carriage.eq e c = false) →
      (t.add_carriage c).carriages = t.carriages ++ [c]) ∧
    (∀ (t : Train) (c : Carriage),
      ((t.add_carriage c).add_carriage c).carriages.length =
        (t.add_carriage c).carriages.length) ∧
    (∀ (t : Train) (c c2 : Carriage), c2.number = c.number →
      c2.carriage_type ≠ c.carriage_type →
      (∀ e ∈ t.carriages, Carriage.eq e c2 = false) →
      ((t.add_carriage c).add_carriage c2).carriages =
        (t.add_carriage c).carriages ++ [c2]) := by
  refine ⟨fun t c h => by rw [Train.add_carriage_of_mem h], ?_, ?_, ?_⟩
  · exact fun t c h => Train.add_carriage_of_not_mem h
  · intro t c
    have hmem : ∃ e ∈ (t.add_carriage c).carriages, Carriage.eq e c = true := by
      by_cases hany : ∃ e ∈ t.carriages, Carriage.eq e c = true
      · obtain ⟨e, he, heq⟩ := hany
        exact ⟨e, by rw [Train.add_carriage_of_mem ⟨e, he, heq⟩]; exact he, heq⟩
      · push_neg at hany
        refine ⟨c, ?_, Carriage.eq_refl c⟩
        rw [Train.add_carriage_of_not_mem]
        · simp
        · intro e he
          have := hany e he
          simpa using this
    rw [Train.add_carriage_of_mem hmem]
  · intro t c c2 hnum htype hno
    apply Train.add_carriage_of_not_mem
    intro e he
    simp only [Train.add_carriage] at he
    by_cases hany : t.carriages.any (fun e => Carriage.eq e c) = true
    · rw [if_pos hany] at he
      exact hno e he
    · rw [if_neg hany] at he
      simp only [List.mem_append, List.mem_singleton] at he
      rcases he with he | rfl
      · exact hno e he
      · simp only [Carriage.eq, Bool.and_eq_false_iff]
        right
        exact beq_eq_false_iff_ne.mpr (fun hh => htype hh.symm)

/-- Witness for C3: a train holding carriage `(1, "к")`; re-adding an equal
carriage is a no-op, adding to an empty train appends, adding twice keeps the
length, and carriage `(1, "п")` (same number, other type) is appended as a
distinct entry. -/
theorem c3_add_carriage_witness :
    ((⟨.str "n", .str "r", none, [⟨.int 1, .str "к", []⟩]⟩ : Train).add_carriage
        ⟨.int 1, .str "к", []⟩).carriages = [⟨.int 1, .str "к", []⟩] ∧
    ((Train.init (.str "n") (.str "r")).add_carriage ⟨.int 1, .str "к", []⟩).carriages =
      [] ++ [⟨.int 1, .str "к", []⟩] ∧
    (((Train.init (.str "n") (.str "r")).add_carriage ⟨.int 1, .str "к", []⟩).add_carriage
        ⟨.int 1, .str "к", []⟩).carriages.length =
      ((Train.init (.str "n") (.str "r")).add_carriage ⟨.int 1, .str "к", []⟩).carriages.length ∧
    (((Train.init (.str "n") (.str "r")).add_carriage ⟨.int 1, .str "к", []⟩).add_carriage
        ⟨.int 1, .str "п", []⟩).carriages =
      ((Train.init (.str "n") (.str "r")).add_carriage ⟨.int 1, .str "к", []⟩).carriages ++
        [⟨.int 1, .str "п", []⟩] := by
  refine ⟨?_, ?_, ?_, ?_⟩
  · exact c3_add_carriage_conditional_append.1 _ _ ⟨⟨.int 1, .str "к", []⟩, by decide⟩
  · exact c3_add_carriage_conditional_append.2.1 _ _ (by decide)
  · exact c3_add_carriage_conditional_append.2.2.1 _ _
  · exact c3_add_carriage_conditional_append.2.2.2 _ _ _ rfl (by decide) (by decide)

/-! Helper lemmas about `removeFirst`. -/

theorem Train.removeFirst_of_head {pre post : List Carriage} {x c : Carriage}
    (hpre : ∀ e ∈ pre, Carriage.eq e c = false) (hx : Carriage.eq x c = true) :
    Train.removeFirst (pre ++ x :: post) c = pre ++ post := by
  induction pre with
  | nil => simp [Train.removeFirst, hx]
  | cons e pre ih =>
    have he : Carriage.eq e c = false := hpre e (List.mem_cons_self e pre)
    have ih2 := ih (fun y hy => hpre y (List.mem_cons_of_mem e hy))
    simp [Train.removeFirst, he, ih2]

/-- **C4.** For every Train and every Carriage `c`: `remove_carriage c`
removes exactly the first carriage in the sequence equal to `c` by Carriage
equality when one exists, and leaves the carriage sequence unchanged when no
carriage equals `c`. -/
theorem c4_remove_carriage_first_match :
    (∀ (t : Train) (c : Carriage), (∀ e ∈ t.carriages, Carriage.eq e c = false) →
      (t.remove_carriage c).carriages = t.carriages) ∧
    (∀ (t : Train) (c x : Carriage) (pre post : List Carriage),
      t.carriages = pre ++ x :: post → (∀ e ∈ pre, Carriage.eq e c = false) →
      Carriage.eq x c = true →
      (t.remove_carriage c).carriages = pre ++ post) := by
  constructor
  · intro t c h
    simp only [Train.remove_carriage]
    rw [if_neg]
    simp only [List.any_eq_true, not_exists, not_and]
    intro e he
    simp [h e he]
  · intro t c x pre post hsplit hpre hx
    simp only [Train.remove_carriage]
    rw [if_pos]
    · simp only [hsplit, Train.removeFirst_of_head hpre hx]
    · simp only [List.any_eq_true]
      exact ⟨x, by simp [hsplit], hx⟩

/-- Witness for C4: removing `(2, "к")` from a train holding only `(1, "к")`
is a no-op; removing `(1, "к")` from `[(3, "к"), (1, "к"), (1, "к")]` drops
exactly the first equal entry. -/
theorem c4_remove_carriage_witness :
    ((⟨.str "n", .str "r", none, [⟨.int 1, .str "к", []⟩]⟩ : Train).remove_carriage
        ⟨.int 2, .str "к", []⟩).carriages = [⟨.int 1, .str "к", []⟩] ∧
    ((⟨.str "n", .str "r", none,
        [⟨.int 3, .str "к", []⟩, ⟨.int 1, .str "к", []⟩, ⟨.int 1, .str "к", []⟩]⟩ :
        Train).remove_carriage ⟨.int 1, .str "к", []⟩).carriages =
      [⟨.int 3, .str "к", []⟩] ++ [⟨.int 1, .str "к", []⟩] := by
  constructor
  · exact c4_remove_carriage_first_match.1 _ _ (by decide)
  · exact c4_remove_carriage_first_match.2 _ _ ⟨.int 1, .str "к", []⟩
      [⟨.int 3, .str "к", []⟩] [⟨.int 1, .str "к", []⟩] rfl (by decide) (by decide)

/-! Helper lemmas: the imperative row loop builds `headers` followed by one
row per (carriage, seat) pair. -/

theorem Train.seats_foldl_rows (c : Carriage) :
    ∀ (ss : List Seat) (acc : List (List Json)),
      ss.foldl (fun a s => a ++ [Train.seatRow c s]) acc =
        acc ++ ss.map (Train.seatRow c) := by
  intro ss
  induction ss with
  | nil => simp
  | cons s ss ih =>
    intro acc
    simp [ih]

theorem Train.carriages_foldl_rows :
    ∀ (cs : List Carriage) (acc : List (List Json)),
      cs.foldl (fun acc c => c.seats.foldl (fun a2 s => a2 ++ [Train.seatRow c s]) acc) acc =
        acc ++ cs.flatMap (fun c => c.seats.map (Train.seatRow c)) := by
  intro cs
  induction cs with
  | nil => simp
  | cons c cs ih =>
    intro acc
    rw [List.foldl_cons, Train.seats_foldl_rows, ih, List.flatMap_cons, List.append_assoc]

/-- Counterexample to **C5** as stated: the report's header cells and status
cells are the Russian strings written at `src/main.py` lines 135 and 150,
not `Carriage Number`, ..., `Status` and `Reserved`/`Free`. -/
theorem c5_counterexample :
    Train.reportRows demoTrain =
      [[.str "Вагон", .str "Тип вагона", .str "Место",
        .str "Тип места", .str "Класс", .str "Статус"],
       [.int 10, .str "купейный", .int 1, .str "нижнее",
        .str "купейное", .str "Свободно"]] ∧
    (Train.reportRows demoTrain).getD 0 [] ≠
      [.str "Carriage Number", .str "Carriage Type", .str "Seat Number",
       .str "Seat Type", .str "Class", .str "Status"] ∧
    ((Train.reportRows demoTrain).getD 1 []).getD 5 .null ≠ .str "Free" := by
  refine ⟨rfl, by decide, by decide⟩

/-- **C5 (amended).** For every Train, `generate_report` writes a spreadsheet
whose first row has exactly the header cells `Вагон`, `Тип вагона`, `Место`,
`Тип места`, `Класс`, `Статус` (Russian for Carriage Number, Carriage Type,
Seat Number, Seat Type, Class, Status), followed by exactly one data row per
(carriage, seat) pair in carriage-then-seat order, with the Status cell
equal to `Забронировано` (Reserved) when the seat's `reserved` flag is
truthy and `Свободно` (Free) when it is not. -/
theorem c5_report_rows_structure (t : Train) :
    Train.reportRows t =
      [.str "Вагон", .str "Тип вагона", .str "Место",
       .str "Тип места", .str "Класс", .str "Статус"] ::
        t.carriages.flatMap (fun c => c.seats.map (Train.seatRow c)) ∧
    (∀ (c : Carriage) (s : Seat),
      (Train.seatRow c s).getD 5 .null =
        if s.reserved.truthy then .str "Забронировано" else .str "Свободно") := by
  constructor
  · simp [Train.reportRows, Train.carriages_foldl_rows, Train.headers]
  · intro c s
    by_cases h : s.reserved.truthy <;> simp [Train.seatRow, h]

/-- Counterexample to **C6** as stated: file content that does not match the
expected structure (its seat object is missing the key `reserved`) loads
without any error — `Seat.__init__`'s default silently fills the field. -/
theorem c6_counterexample :
    ([("number", Json.int 2), ("seat_type", Json.str "н"),
      ("comfort_class", Json.str "к")].lookup "reserved" = none) ∧
    loadFromFile (.json malformedContent) =
      .ok ⟨.str "a", .str "b", none,
        [⟨.int 1, .str "к", [⟨.int 2, .str "н", .str "к", .bool false⟩]⟩]⟩ :=
  ⟨rfl, rfl⟩

/-- **C6 (amended).** `load` fails with the NotFoundError kind exactly when
the file is missing, and with the ParseError kind exactly when the file text
is not valid JSON or reconstructing the objects from the decoded value
raises (non-dict subscription, missing required keys, non-iterable
`carriages`/`seats`, unexpected constructor keys); both errors are surfaced
to the caller.  Not every structural deviation fails, however: e.g. a seat
object missing the `reserved` key, or a falsy `locomotive` value such as
`{}`, loads without error. -/
theorem c6_load_error_kinds (f : FileContent) :
    (loadFromFile f = .error .notFound ↔ f = .missing) ∧
    (loadFromFile f = .error .parseError ↔
      f = .invalidText ∨ ∃ j, f = .json j ∧ Train.parseTrain j = .error ()) := by
  cases f with
  | missing => simp [loadFromFile]
  | invalidText => simp [loadFromFile]
  | json j =>
    cases hp : Train.parseTrain j with
    | ok t => simp [loadFromFile, hp]
    | error e => simp [loadFromFile, hp]

/-- **C7.** For every Train whose locomotive is unset, save serializes the
`locomotive` field as `null`, and loading that file produces a Train whose
locomotive is again unset (the loaded train equals the saved one, whose
locomotive is `none`). -/
theorem c7_locomotive_null_round_trip (t : Train) (h : t.locomotive = none) :
    t.saveData.getKey "locomotive" = .ok .null ∧
    loadFromFile (.json t.saveData) = .ok t := by
  constructor
  · obtain ⟨n, r, lo, cs⟩ := t
    cases h
    rfl
  · simp only [loadFromFile, Train.parse_saveData]

/-- Witness for C7 at the freshly constructed train `Train("042", "r")`. -/
theorem c7_locomotive_null_witness :
    (Train.init (.str "042") (.str "r")).locomotive = none ∧
    (Train.init (.str "042") (.str "r")).saveData.getKey "locomotive" = .ok .null ∧
    loadFromFile (.json (Train.init (.str "042") (.str "r")).saveData) =
      .ok (Train.init (.str "042") (.str "r")) :=
  ⟨rfl, (c7_locomotive_null_round_trip _ rfl).1, (c7_locomotive_null_round_trip _ rfl).2⟩

/-! Helper lemmas for the carriage-uniqueness invariant. -/

theorem Train.removeFirst_sublist (c : Carriage) :
    ∀ l : List Carriage, List.Sublist (Train.removeFirst l c) l := by
  intro l
  induction l with
  | nil => simp [Train.removeFirst]
  | cons e rest ih =>
    simp only [Train.removeFirst]
    by_cases he : Carriage.eq e c = true
    · rw [if_pos he]
      exact List.sublist_cons_self e rest
    · rw [if_neg he]
      exact List.Sublist.cons₂ e ih

/-- Counterexample to **C8** as stated: `load_from_file` assigns the parsed
carriage list directly (line 125), so loading a file that holds two
identical carriage objects produces a Train whose carriage sequence contains
two carriages equal by Carriage equality. -/
theorem c8_counterexample :
    loadFromFile (.json dupContent) =
      .ok ⟨.str "a", .str "b", none,
        [⟨.int 1, .str "к", []⟩, ⟨.int 1, .str "к", []⟩]⟩ ∧
    ¬ ([⟨.int 1, .str "к", []⟩, ⟨.int 1, .str "к", []⟩] : List Carriage).Pairwise
        (fun a b => Carriage.eq a b = false) := by
  refine ⟨rfl, fun h => ?_⟩
  have := (List.pairwise_cons.mp h).1 _ (List.mem_cons_self _ _)
  simp [Carriage.eq] at this

/-- **C8 (amended).** In every Train state reachable through the program's
own operations — constructed, mutated by `add_carriage` / `remove_carriage`
/ `set_locomotive`, or loaded back from a file the program itself saved —
the carriages sequence contains no two carriages that are equal by Carriage
equality.  (Loading a hand-crafted file with duplicate carriage objects is
not covered: `load_from_file` assigns the parsed list without the
`add_carriage` equality scan.) -/
theorem c8_reachable_carriages_unique (t : Train) (h : ReachableTrain t) :
    t.carriages.Pairwise (fun a b => Carriage.eq a b = false) := by
  induction h with
  | init n r => exact List.Pairwise.nil
  | add c hr ih =>
    rename_i t2
    simp only [Train.add_carriage]
    by_cases hany : t2.carriages.any (fun e => Carriage.eq e c) = true
    · rw [if_pos hany]
      exact ih
    · rw [if_neg hany]
      show ((t2.carriages ++ [c]).Pairwise fun a b => Carriage.eq a b = false)
      rw [List.pairwise_append]
      refine ⟨ih, List.pairwise_singleton _ _, fun a ha b hb => ?_⟩
      simp only [List.mem_singleton] at hb
      subst hb
      simp only [List.any_eq_true, not_exists, not_and] at hany
      simpa using hany a ha
  | remove c hr ih =>
    rename_i t2
    simp only [Train.remove_carriage]
    by_cases hany : t2.carriages.any (fun e => Carriage.eq e c) = true
    · rw [if_pos hany]
      exact ih.sublist (Train.removeFirst_sublist c t2.carriages)
    · rw [if_neg hany]
      exact ih
  | setLoco l hr ih => exact ih
  | loadSave hr hload ih =>
    rename_i t2 t3
    rw [loadFromFile, Train.parse_saveData] at hload
    injection hload with hload
    rw [← hload]
    exact ih

/-- Witness for C8 at a concrete reachable train: the invariant holds after
constructing a train and adding one carriage. -/
theorem c8_reachable_witness :
    ((Train.init (.str "n") (.str "r")).add_carriage
        ⟨.int 1, .str "к", []⟩).carriages.Pairwise
      (fun a b => Carriage.eq a b = false) :=
  c8_reachable_carriages_unique _
    (ReachableTrain.add _ (ReachableTrain.init (.str "n") (.str "r")))

/-! Helper lemmas: the running-maximum loop of the column sizing. -/

theorem foldl_pick_max {α : Type} (f : α → Nat) :
    ∀ (l : List α) (a : Nat),
      l.foldl (fun m x => if f x > m then f x else m) a =
        l.foldl (fun m x => max m (f x)) a := by
  intro l
  induction l with
  | nil => intro a; rfl
  | cons x l ih =>
    intro a
    simp only [List.foldl_cons, ih]
    congr 1
    rcases Nat.lt_or_ge a (f x) with h | h
    · rw [if_pos h, Nat.max_eq_right (le_of_lt h)]
    · rw [if_neg (by omega), Nat.max_eq_left h]

theorem le_foldl_max :
    ∀ (l : List Nat) (a : Nat), (∀ x ∈ l, x ≤ l.foldl max a) ∧ a ≤ l.foldl max a := by
  intro l
  induction l with
  | nil => intro a; exact ⟨by simp, le_refl a⟩
  | cons y l ih =>
    intro a
    simp only [List.foldl_cons]
    constructor
    · intro x hx
      rcases List.mem_cons.mp hx with rfl | hx
      · exact le_trans (le_max_right a x) (ih (max a x)).2
      · exact (ih (max a y)).1 x hx
    · exact le_trans (le_max_left a y) (ih (max a y)).2

theorem foldl_max_attained :
    ∀ (l : List Nat) (a : Nat), l.foldl max a = a ∨ ∃ x ∈ l, l.foldl max a = x := by
  intro l
  induction l with
  | nil => intro a; exact Or.inl rfl
  | cons y l ih =>
    intro a
    simp only [List.foldl_cons]
    rcases ih (max a y) with h | ⟨x, hx, hfx⟩
    · rcases max_choice a y with hm | hm
      · exact Or.inl (by rw [h, hm])
      · exact Or.inr ⟨y, List.mem_cons_self y l, by rw [h, hm]⟩
    · exact Or.inr ⟨x, List.mem_cons_of_mem y hx, hfx⟩

theorem Train.colWidth_eq (rows : List (List Json)) (i : Nat) :
    Train.colWidth rows i =
      (rows.map (fun r => (pyStr (r.getD i .null)).length)).foldl max 0 + 2 := by
  simp only [Train.colWidth]
  congr 1
  rw [List.foldl_map]
  exact foldl_pick_max (fun r => (pyStr (r.getD i .null)).length) rows 0

/-- **C9.** For every Train, `generate_report` sets each column's width to
the length of the longest string representation of any cell value in that
column, including the header cell, plus a fixed padding of 2 character
units. -/
theorem c9_column_width_longest_plus_padding :
    ∀ (t : Train), t.wt = true → ∀ i : Nat, i < 6 →
      (∀ r ∈ Train.reportRows t,
        (pyStr (r.getD i .null)).length + 2 ≤ Train.colWidth (Train.reportRows t) i) ∧
      (∃ r ∈ Train.reportRows t,
        Train.colWidth (Train.reportRows t) i = (pyStr (r.getD i .null)).length + 2) := by
  intro t hwt i hi
  have hcw := Train.colWidth_eq (Train.reportRows t) i
  constructor
  · intro r hr
    rw [hcw]
    have hmem : (pyStr (r.getD i .null)).length ∈
        (Train.reportRows t).map (fun r => (pyStr (r.getD i .null)).length) :=
      List.mem_map_of_mem _ hr
    have h2 := (le_foldl_max _ 0).1 _ hmem
    omega
  · rcases foldl_max_attained
        ((Train.reportRows t).map (fun r => (pyStr (r.getD i .null)).length)) 0 with
      h0 | ⟨x, hx, hfx⟩
    · exfalso
      have hhead : Train.headers ∈ Train.reportRows t :=
        List.mem_cons_self _ _
      have hmem : (pyStr (Train.headers.getD i .null)).length ∈
          (Train.reportRows t).map (fun r => (pyStr (r.getD i .null)).length) :=
        List.mem_map_of_mem _ hhead
      have hle := (le_foldl_max _ 0).1 _ hmem
      rw [h0] at hle
      have hpos : 0 < (pyStr (Train.headers.getD i .null)).length := by
        interval_cases i <;> decide
      omega
    · rcases List.mem_map.mp hx with ⟨r, hr, rfl⟩
      exact ⟨r, hr, by rw [hcw, hfx]⟩

/-- Witness for C9 at the concrete well-typed train `demoTrain`, column 0. -/
theorem c9_column_width_witness :
    Train.wt demoTrain = true ∧
    ((∀ r ∈ Train.reportRows demoTrain,
        (pyStr (r.getD 0 .null)).length + 2 ≤
          Train.colWidth (Train.reportRows demoTrain) 0) ∧
      (∃ r ∈ Train.reportRows demoTrain,
        Train.colWidth (Train.reportRows demoTrain) 0 =
          (pyStr (r.getD 0 .null)).length + 2)) :=
  ⟨by decide, c9_column_width_longest_plus_padding demoTrain (by decide) 0 (by decide)⟩

/-- **C10.** The equality operations of Seat, Carriage, Locomotive, and
Train access the compared attributes of the other operand without any type
check, so comparing an entity to any object that lacks those attributes
(e.g. a Seat compared to an object without `comfort_class`) raises an error
instead of returning false; equality is only total when both operands
provide the compared fields. -/
theorem c10_eq_requires_attributes :
    (∀ (s : Seat) (o : PyObj), o.lookup "comfort_class" = none →
      s.eqPy o = .error ()) ∧
    (∀ (c : Carriage) (o : PyObj), o.lookup "number" = none →
      c.eqPy o = .error ()) ∧
    (∀ (l : Locomotive) (o : PyObj), o.lookup "serial_number" = none →
      l.eqPy o = .error ()) ∧
    (∀ (t : Train) (o : PyObj), o.lookup "number" = none →
      t.eqPy o = .error ()) ∧
    (∀ (s : Seat) (o : PyObj) (v w : Json), o.lookup "comfort_class" = some v →
      o.lookup "seat_type" = some w → ∃ b, s.eqPy o = .ok b) ∧
    (∀ (c : Carriage) (o : PyObj) (v w : Json), o.lookup "number" = some v →
      o.lookup "carriage_type" = some w → ∃ b, c.eqPy o = .ok b) ∧
    (∀ (l : Locomotive) (o : PyObj) (v : Json), o.lookup "serial_number" = some v →
      ∃ b, l.eqPy o = .ok b) ∧
    (∀ (t : Train) (o : PyObj) (v : Json), o.lookup "number" = some v →
      ∃ b, t.eqPy o = .ok b) := by
  refine ⟨?_, ?_, ?_, ?_, ?_, ?_, ?_, ?_⟩
  · intro s o h
    simp only [Seat.eqPy, pyGetAttr, h]
    rfl
  · intro c o h
    simp only [Carriage.eqPy, pyGetAttr, h]
    rfl
  · intro l o h
    simp only [Locomotive.eqPy, pyGetAttr, h]
    rfl
  · intro t o h
    simp only [Train.eqPy, pyGetAttr, h]
    rfl
  · intro s o v w hv hw
    simp only [Seat.eqPy, pyGetAttr, hv, hw, exceptBind_ok]
    by_cases hc : (s.comfort_class == v) = true
    · rw [if_pos hc]
      exact ⟨_, rfl⟩
    · rw [if_neg hc]
      exact ⟨_, rfl⟩
  · intro c o v w hv hw
    simp only [Carriage.eqPy, pyGetAttr, hv, hw, exceptBind_ok]
    by_cases hc : (c.number == v) = true
    · rw [if_pos hc]
      exact ⟨_, rfl⟩
    · rw [if_neg hc]
      exact ⟨_, rfl⟩
  · intro l o v hv
    simp only [Locomotive.eqPy, pyGetAttr, hv, exceptBind_ok]
    exact ⟨_, rfl⟩
  · intro t o v hv
    simp only [Train.eqPy, pyGetAttr, hv, exceptBind_ok]
    exact ⟨_, rfl⟩

/-- Witness for C10: each equality raises on the attribute-less object `[]`
and is total on an object providing the compared fields. -/
theorem c10_eq_requires_attributes_witness :
    ((⟨.int 1, .str "н", .str "к", .bool false⟩ : Seat).eqPy [] = .error ()) ∧
    ((⟨.int 1, .str "к", []⟩ : Carriage).eqPy [] = .error ()) ∧
    ((⟨.str "s", .int 1⟩ : Locomotive).eqPy [] = .error ()) ∧
    ((⟨.str "n", .str "r", none, []⟩ : Train).eqPy [] = .error ()) ∧
    (∃ b, (⟨.int 1, .str "н", .str "к", .bool false⟩ : Seat).eqPy
      [("comfort_class", .str "к"), ("seat_type", .str "н")] = .ok b) ∧
    (∃ b, (⟨.int 1, .str "к", []⟩ : Carriage).eqPy
      [("number", .int 1), ("carriage_type", .str "к")] = .ok b) ∧
    (∃ b, (⟨.str "s", .int 1⟩ : Locomotive).eqPy
      [("serial_number", .str "s")] = .ok b) ∧
    (∃ b, (⟨.str "n", .str "r", none, []⟩ : Train).eqPy
      [("number", .str "n")] = .ok b) :=
  ⟨c10_eq_requires_attributes.1 _ _ rfl,
   c10_eq_requires_attributes.2.1 _ _ rfl,
   c10_eq_requires_attributes.2.2.1 _ _ rfl,
   c10_eq_requires_attributes.2.2.2.1 _ _ rfl,
   c10_eq_requires_attributes.2.2.2.2.1 _ _ _ _ rfl rfl,
   c10_eq_requires_attributes.2.2.2.2.2.1 _ _ _ _ rfl rfl,
   c10_eq_requires_attributes.2.2.2.2.2.2.1 _ _ _ rfl,
   c10_eq_requires_attributes.2.2.2.2.2.2.2 _ _ _ rfl⟩
